/-
Verification of the lumenode/container dependency-resolution container.

The development shallowly embeds src/Container.js: container state is a
record of association lists (the four registry maps of the source plus a
fresh-object counter standing for heap allocation), values are a closed
dynamic-value type with the truthiness used by the source, and the
recursive resolver is written with an explicit fuel parameter because the
source recursion is unbounded on cyclic binding graphs.
-/
import Mathlib

namespace Container

/-- A constructible (a function or class in the source).  The source reads
formal parameter names off the live function text with a regular
expression (parseFunctionArguments); the embedding models a constructible
as its ordered parameter-name list, a method table giving each method its
own parameter-name list, and a numeric tag standing for the identity of
the function object. -/
structure Ctor where
  params : List String
  methods : List (String × List String)
  tag : Nat
deriving Repr, DecidableEq

/-- The concrete stored in a binding: a function, a string, or null. -/
inductive Concrete where
  | fn (c : Ctor)
  | str (s : String)
  | nullC
deriving Repr, DecidableEq

/-- Dynamic values.  An object carries the constructible that built it,
the argument list it was constructed with, and an allocation identifier:
two objects are identity-equal in the source exactly when they are the
same allocation. -/
inductive Value where
  | undefV
  | nullV
  | boolV (b : Bool)
  | numV (n : Int)
  | strV (s : String)
  | obj (c : Ctor) (args : List Value) (objId : Nat)
deriving Repr

/-- Truthiness of a value, as the source uses it in conditions.  NaN is
not modelled; no integer other than 0 is falsy. -/
def truthy : Value → Bool
  | .undefV => false
  | .nullV => false
  | .boolV b => b
  | .numV n => n != 0
  | .strV s => s != ""
  | .obj _ _ _ => true

/-- Recognizer for the undefined value; the source tests
parameters[name] !== undefined with it. -/
def Value.isUndefined : Value → Bool
  | .undefV => true
  | _ => false

/-- A stored binding: concrete plus the shared flag (already coerced with
the double negation of the source). -/
structure Binding where
  concrete : Concrete
  shared : Bool
deriving Repr, DecidableEq

/-- Lookup in an association list keyed by strings; none models a missing
property. -/
def lookupA {α : Type} : List (String × α) → String → Option α
  | [], _ => none
  | e :: rest, k => if e.1 = k then some e.2 else lookupA rest k

/-- Removal of a key, modelling the delete operator of the source. -/
def eraseA {α : Type} : List (String × α) → String → List (String × α)
  | [], _ => []
  | e :: rest, k => if e.1 = k then eraseA rest k else e :: eraseA rest k

/-- Property write, modelling map[k] = v of the source. -/
def insertA {α : Type} (m : List (String × α)) (k : String) (v : α) :
    List (String × α) :=
  (k, v) :: eraseA m k

/-- Set-like insert for the resolved-marker map (whose values are all the
literal true in the source). -/
def insertS (m : List String) (k : String) : List String :=
  k :: m.filter (fun t => t != k)

/-- Caller-supplied parameter override map. -/
def Params : Type := List (String × Value)

/-- The default [] the source substitutes for a missing parameters
argument. -/
def noParams : Params := []

/-- Reading map[k] in the source yields undefined on a missing key. -/
def getV (m : List (String × Value)) (k : String) : Value :=
  (lookupA m k).getD .undefV

/-- Container state: the four maps of the source constructor plus a
counter supplying fresh allocation identifiers for new objects. -/
structure State where
  bindings : List (String × Binding)
  instances : List (String × Value)
  resolved : List String
  aliases : List (String × String)
  nextId : Nat
deriving Repr

/-- The state of a freshly constructed container. -/
def initialState : State := ⟨[], [], [], [], 0⟩

/-- The external module loader behind require; out of core scope, so the
embedding takes it as an opaque environment. -/
def Loader : Type := String → Option Ctor

/-- A loader that resolves nothing. -/
def noLoader : Loader := fun _ => none

/-- Errors surfaced to the caller. outOfFuel is an artifact of the fuel
bound: the source recursion is unbounded and crashes on cycles. -/
inductive Err where
  | constructibleNotFound (name : String)
  | exceptionThrown (kind : String) (message : String)
  | typeError
  | outOfFuel
deriving Repr, DecidableEq

/-- Modelled from the spec: the exception helper invoked by callClass is
not defined anywhere in the repository sources; per the spec it produces
a fatal, caller-visible InvalidArgument error that is not recovered. -/
def exception {α : Type} (kind : String) (message : String) : Except Err α :=
  .error (.exceptionThrown kind message)

/-- dropStaleInstances: delete this.instances[abstract]. -/
def dropStaleInstances (st : State) (abstract : String) : State :=
  { st with instances := eraseA st.instances abstract }

/-- bind: evict any stale instance, then store the binding with the
coerced shared flag. -/
def bind (st : State) (abstract : String) (concrete : Concrete)
    (shared : Value) : State :=
  let st1 := dropStaleInstances st abstract
  { st1 with bindings := insertA st1.bindings abstract ⟨concrete, truthy shared⟩ }

/-- isAlias: the source returns this.aliases[abstract], used in boolean
contexts, so a present entry counts only when the stored string is
truthy. -/
def isAlias (st : State) (abstract : String) : Bool :=
  match lookupA st.aliases abstract with
  | some t => t != ""
  | none => false

/-- bound: bindings[abstract] || instances[abstract] || isAlias(abstract),
each tested for truthiness as in the source (a present binding object is
always truthy; a cached instance counts only when truthy). -/
def bound (st : State) (abstract : String) : Bool :=
  (lookupA st.bindings abstract).isSome || truthy (getV st.instances abstract)
    || isAlias st abstract

/-- bindIf: bind only when not already bound. -/
def bindIf (st : State) (abstract : String) (concrete : Concrete)
    (shared : Value) : State :=
  if bound st abstract then st else bind st abstract concrete shared

/-- singleton: a shared bind. -/
def singleton (st : State) (abstract : String) (concrete : Concrete) : State :=
  bind st abstract concrete (.boolV true)

/-- alias: this.aliases[alias] = abstract.  Named aliasM because alias is
a reserved command name. -/
def aliasM (st : State) (abstract : String) (al : String) : State :=
  { st with aliases := insertA st.aliases al abstract }

/-- getAlias: one lookup; the stored target is returned only when truthy,
otherwise the input name is returned unchanged. -/
def getAlias (st : State) (abstract : String) : String :=
  match lookupA st.aliases abstract with
  | some t => if t != "" then t else abstract
  | none => abstract

/-- instance: delete any alias under the name, then store the value in
the instance cache.  Named instanceM because instance is a keyword. -/
def instanceM (st : State) (abstract : String) (inst : Value) : State :=
  { st with aliases := eraseA st.aliases abstract,
            instances := insertA st.instances abstract inst }

/-- forgetInstance: remove cached instance, binding and alias entry of
the name together. -/
def forgetInstance (st : State) (abstract : String) : State :=
  { st with instances := eraseA st.instances abstract,
            bindings := eraseA st.bindings abstract,
            aliases := eraseA st.aliases abstract }

/-- forgotAll: reset the four maps. -/
def forgotAll (st : State) : State :=
  { st with bindings := [], instances := [], resolved := [], aliases := [] }

/-- Leading-plus test, modelling the regular expression match against a
leading plus sign. -/
def startsWithPlus (s : String) : Bool :=
  match s.data with
  | c :: _ => c = '+'
  | [] => false

/-- Removal of the first plus character, modelling the non-global replace
the source applies to the external-load marker. -/
def removeFirstPlus : List Char → List Char
  | [] => []
  | c :: cs => if c = '+' then cs else c :: removeFirstPlus cs

/-- The string with its first plus character removed. -/
def stripPlus (s : String) : String :=
  ⟨removeFirstPlus s.data⟩

/-- needAutoInject: a non-function concrete carrying the leading
external-load marker.  On null the source would raise a TypeError before
answering; the false returned here is never consulted because build maps
a null concrete to that TypeError directly. -/
def needAutoInject : Concrete → Bool
  | .fn _ => false
  | .str s => startsWithPlus s
  | .nullC => false

/-- isBuildable: the concrete equals the abstract name itself, or is a
function. -/
def isBuildable (concrete : Concrete) (abstract : String) : Bool :=
  match concrete with
  | .fn _ => true
  | .str s => s == abstract
  | .nullC => false

/-- getConcrete: an unbound name is turned into an external-load target
by prefixing the marker (unless already marked); a bound name yields the
concrete of its binding. -/
def getConcrete (st : State) (abstract : String) : Concrete :=
  match lookupA st.bindings abstract with
  | none => if startsWithPlus abstract then .str abstract
            else .str ("+" ++ abstract)
  | some b => b.concrete

/-- isShared: an instance is already cached (present, not merely truthy),
or the binding carries the shared flag. -/
def isShared (st : State) (abstract : String) : Bool :=
  let shared := match lookupA st.bindings abstract with
    | some b => b.shared
    | none => false
  !(getV st.instances abstract).isUndefined || shared

/-- parseFunctionArguments: the source extracts the declared parameter
names from the function text; the embedding projects the declared list of
the constructible. -/
def parseFunctionArguments (c : Ctor) : List String := c.params

/-- instantiateClass: constructing with new allocates a fresh object
carrying the constructible and the resolved arguments in order. -/
def instantiateClass (c : Ctor) (instances : List Value) (st : State) :
    Value × State :=
  (.obj c instances st.nextId, { st with nextId := st.nextId + 1 })

/-- getDependencies: for each parameter name in order, a defined entry of
the override map is used verbatim, otherwise the dependency is resolved
by the supplied resolver (make with no parameters in the source). -/
def getDependencies (mk : State → String → Except Err (Value × State)) :
    State → List String → Params → Except Err (List Value × State)
  | st, [], _ => .ok ([], st)
  | st, d :: ds, parameters =>
    if (getV parameters d).isUndefined then
      (mk st d).bind fun q =>
        (getDependencies mk q.2 ds parameters).map fun r => (q.1 :: r.1, r.2)
    else
      (getDependencies mk st ds parameters).map fun r =>
        (getV parameters d :: r.1, r.2)

/-- build: resolve the external-load marker through the loader when
needed, introspect the parameter list, resolve the dependencies and
instantiate.  A null concrete raises the TypeError of the source; so does
an unmarked string concrete, on which the source attempt to construct a
non-function throws. -/
def build (L : Loader) (mk : State → String → Except Err (Value × State))
    (st : State) (concrete : Concrete) (parameters : Params) :
    Except Err (Value × State) :=
  match concrete with
  | .fn c =>
    (getDependencies mk st (parseFunctionArguments c) parameters).map
      fun r => instantiateClass c r.1 r.2
  | .str s =>
    if needAutoInject (.str s) then
      match L (stripPlus s) with
      | some c =>
        (getDependencies mk st (parseFunctionArguments c) parameters).map
          fun r => instantiateClass c r.1 r.2
      | none => .error (.constructibleNotFound (stripPlus s))
    else .error .typeError
  | .nullC => .error .typeError

/-- The bookkeeping the source performs after obtaining the object: cache
it when the name is shared, then set the resolved marker. -/
def finishResolution (st : State) (abstract : String) (object : Value) :
    State :=
  let st1 := if isShared st abstract then
      { st with instances := insertA st.instances abstract object }
    else st
  { st1 with resolved := insertS st1.resolved abstract }

/-- make: resolve the alias once, return a truthy cached instance
unchanged, otherwise determine the concrete and either build it or
re-enter make on it, finishing with the sharing and resolved-marker
bookkeeping.  The fuel bounds the recursion the source leaves unbounded;
a null concrete reaching the re-entry raises the TypeError of the
source. -/
def make (L : Loader) : Nat → State → String → Params →
    Except Err (Value × State)
  | 0, _, _, _ => .error .outOfFuel
  | fuel + 1, st, abstract0, parameters =>
    let abstract := getAlias st abstract0
    if truthy (getV st.instances abstract) then
      .ok (getV st.instances abstract, st)
    else
      let concrete := getConcrete st abstract
      let result :=
        if isBuildable concrete abstract then
          build L (fun s a => make L fuel s a noParams) st concrete parameters
        else
          match concrete with
          | .str s => make L fuel st s parameters
          | _ => .error .typeError
      result.map fun r => (r.1, finishResolution r.2 abstract r.1)

/-- The kinds of callback accepted by call: a plain function, a string
target (possibly in the at-sign syntax), or an instance/method pair. -/
inductive Callback where
  | clos (c : Ctor)
  | target (s : String)
  | pair (inst : Value) (method : String)

/-- Splitting a string on a separator character, as the string split of
the source: the empty string yields one empty segment. -/
def splitChars (sep : Char) : List Char → List (List Char)
  | [] => [[]]
  | c :: cs =>
    match splitChars sep cs with
    | [] => [[]]
    | g :: gs => if c = sep then [] :: g :: gs else (c :: g) :: gs

/-- target.split of the source, on one separator character. -/
def jsSplit (s : String) (sep : Char) : List String :=
  (splitChars sep s.data).map fun l => ⟨l⟩

/-- isCallableWithAtSign: a string containing an at sign. -/
def isCallableWithAtSign : Callback → Bool
  | .target s => s.data.contains '@'
  | _ => false

/-- Truthiness of the optional defaultMethod argument (undefined and the
empty string are falsy). -/
def truthyOpt : Option String → Bool
  | some s => s != ""
  | none => false

/-- getCallRefrector: parameter names of the function itself, or of the
named method of the instance.  A missing method, a non-object instance or
a string callback make the source dereference undefined and throw. -/
def getCallRefrector : Callback → Except Err (List String)
  | .clos c => .ok (parseFunctionArguments c)
  | .pair inst method =>
    match inst with
    | .obj c _ _ =>
      match lookupA c.methods method with
      | some ps => .ok ps
      | none => .error .typeError
    | _ => .error .typeError
  | .target _ => .error .typeError

/-- addDependencyForCallParameter: a defined entry of the override map is
pushed verbatim and then deleted from the map; otherwise the dependency
is resolved with make, which receives the current override map. -/
def addDependencyForCallParameter (L : Loader) (f : Nat) (st : State)
    (parameter : String) (parameters : Params) (dependencies : List Value) :
    Except Err (Params × List Value × State) :=
  if (getV parameters parameter).isUndefined then
    (make L f st parameter parameters).map fun q =>
      (parameters, dependencies ++ [q.1], q.2)
  else
    .ok (eraseA parameters parameter,
         dependencies ++ [getV parameters parameter], st)

/-- The forEach loop of getMethodDependencies, threading the override map
and the accumulated dependency list. -/
def getMethodDependenciesLoop (L : Loader) (f : Nat) :
    State → List String → Params → List Value →
    Except Err (Params × List Value × State)
  | st, [], parameters, dependencies => .ok (parameters, dependencies, st)
  | st, q :: qs, parameters, dependencies =>
    (addDependencyForCallParameter L f st q parameters dependencies).bind
      fun r => getMethodDependenciesLoop L f r.2.2 qs r.1 r.2.1

/-- getMethodDependencies: resolve each parameter of the callback; the
result carries the dependency list together with the override map as the
call leaves it (the source mutates the map in place). -/
def getMethodDependencies (L : Loader) (f : Nat) (st : State)
    (callback : Callback) (parameters : Params) :
    Except Err (List Value × Params × State) :=
  (getCallRefrector callback).bind fun ps =>
    (getMethodDependenciesLoop L f st ps parameters []).map fun r =>
      (r.2.1, r.1, r.2.2)

/-- The result of running user code is outside the embedding;
executeCallable records the argument vector handed to the callable and
raises the TypeError of the source when the callable cannot be applied. -/
def executeCallable (callback : Callback) (dependencies : List Value) :
    Except Err (List Value) :=
  match callback with
  | .clos _ => .ok dependencies
  | .pair inst method =>
    match inst with
    | .obj c _ _ =>
      if (lookupA c.methods method).isSome then .ok dependencies
      else .error .typeError
    | _ => .error .typeError
  | .target _ => .error .typeError

/-- Rank used to justify termination of the call/callClass pair: the
re-entry of call from callClass always carries an instance/method pair,
never another string target. -/
def callbackRank : Callback → Nat
  | .target _ => 1
  | _ => 0

mutual

/-- call: dispatch at-sign targets (or any call with a truthy default
method) to callClass, otherwise resolve the callback parameters and
execute.  The success value is the argument vector passed to the user
code, the override map as left by the call, and the final state. -/
def call (L : Loader) (f : Nat) (st : State) (callback : Callback)
    (parameters : Params) (defaultMethod : Option String) :
    Except Err (List Value × Params × State) :=
  if isCallableWithAtSign callback || truthyOpt defaultMethod then
    callClass L f st callback parameters defaultMethod
  else
    (getMethodDependencies L f st callback parameters).bind fun r =>
      (executeCallable callback r.1).map fun out => (out, r.2.1, r.2.2)
termination_by 2 * callbackRank callback + 1

/-- callClass: split the target on the at sign; a two-segment split
yields the method name, otherwise the default method is used; a falsy
method is the fatal InvalidArgument error; otherwise the left segment is
made and the method called on the result.  A non-string target makes the
source call split on a non-string and throw. -/
def callClass (L : Loader) (f : Nat) (st : State) (target : Callback)
    (parameters : Params) (defaultMethod : Option String) :
    Except Err (List Value × Params × State) :=
  match target with
  | .target s =>
    let segments := jsSplit s '@'
    let method : Option String :=
      match segments with
      | [_, m] => some m
      | _ => defaultMethod
    if truthyOpt method then
      (make L f st (segments.headD "") parameters).bind fun q =>
        call L f q.2 (.pair q.1 (method.getD "")) parameters none
    else
      exception "InvalidArgumentException" "Method is not provided."
  | _ => .error .typeError
termination_by 2 * callbackRank target
decreasing_by simp [callbackRank]

end

/- Helper lemmas about the association-list operations. -/

theorem lookupA_insertA_self {α : Type} (m : List (String × α)) (k : String)
    (v : α) : lookupA (insertA m k v) k = some v := by
  simp [insertA, lookupA]

theorem lookupA_eraseA_self {α : Type} (m : List (String × α)) (k : String) :
    lookupA (eraseA m k) k = none := by
  induction m with
  | nil => rfl
  | cons e rest ih =>
    by_cases h : e.1 = k <;> simp [eraseA, lookupA, h, ih]

theorem lookupA_eraseA_ne {α : Type} (m : List (String × α)) {k k' : String}
    (h : k' ≠ k) : lookupA (eraseA m k) k' = lookupA m k' := by
  induction m with
  | nil => rfl
  | cons e rest ih =>
    simp only [eraseA, lookupA]
    by_cases he : e.1 = k
    · have hne : e.1 ≠ k' := by rw [he]; exact fun hk => h hk.symm
      rw [if_pos he, ih, if_neg hne]
    · by_cases he' : e.1 = k'
      · rw [if_neg he]; simp [lookupA, he']
      · rw [if_neg he]; simp [lookupA, he', ih]

theorem lookupA_insertA_ne {α : Type} (m : List (String × α)) {k k' : String}
    (v : α) (h : k' ≠ k) : lookupA (insertA m k v) k' = lookupA m k' := by
  simp only [insertA, lookupA]
  rw [if_neg (fun hk : k = k' => h hk.symm), lookupA_eraseA_ne m h]

theorem eraseA_eraseA {α : Type} (m : List (String × α)) (k : String) :
    eraseA (eraseA m k) k = eraseA m k := by
  induction m with
  | nil => rfl
  | cons e rest ih =>
    by_cases h : e.1 = k <;> simp [eraseA, h, ih]

theorem eraseA_insertA {α : Type} (m : List (String × α)) (k : String)
    (v : α) : eraseA (insertA m k v) k = eraseA m k := by
  simp [insertA, eraseA, eraseA_eraseA]

theorem getV_insertA_self (m : List (String × Value)) (k : String)
    (v : Value) : getV (insertA m k v) k = v := by
  simp [getV, lookupA_insertA_self]

theorem getV_eraseA_self (m : List (String × Value)) (k : String) :
    getV (eraseA m k) k = .undefV := by
  simp [getV, lookupA_eraseA_self]

theorem getV_eraseA_ne (m : List (String × Value)) {k k' : String}
    (h : k' ≠ k) : getV (eraseA m k) k' = getV m k' := by
  simp [getV, lookupA_eraseA_ne m h]

/- Helper lemmas about values and names. -/

theorem isUndefined_iff (v : Value) : v.isUndefined = true ↔ v = .undefV := by
  cases v <;> simp [Value.isUndefined]

theorem truthy_of_obj {v : Value} (c : Ctor) (args : List Value) (i : Nat)
    (h : v = .obj c args i) : truthy v = true := by
  subst h; rfl

theorem plus_prepend_data (n : String) : ("+" ++ n).data = '+' :: n.data := by
  simp [String.data_append]

theorem plus_prepend_ne (n : String) : ("+" ++ n) ≠ n := by
  intro h
  have hl : ("+" ++ n).data.length = n.data.length := by rw [h]
  rw [plus_prepend_data] at hl
  simp at hl

theorem startsWithPlus_prepend (n : String) :
    startsWithPlus ("+" ++ n) = true := by
  simp [startsWithPlus, plus_prepend_data]

theorem stripPlus_prepend (n : String) : stripPlus ("+" ++ n) = n := by
  simp [stripPlus, plus_prepend_data, removeFirstPlus]

/- getAlias depends only on the alias map. -/

theorem getAlias_congr {st st' : State} (h : st'.aliases = st.aliases)
    (x : String) : getAlias st' x = getAlias st x := by
  simp [getAlias, h]

/- make never writes the binding registry or the alias table: the only
maps it updates are the instance cache and the resolved markers. -/

def preservesRegistry (mk : State → String → Except Err (Value × State)) :
    Prop :=
  ∀ s a v s', mk s a = .ok (v, s') →
    s'.bindings = s.bindings ∧ s'.aliases = s.aliases

theorem getDependencies_preserves
    {mk : State → String → Except Err (Value × State)}
    (hmk : preservesRegistry mk) :
    ∀ (ds : List String) (st : State) (parameters : Params)
      (vs : List Value) (st' : State),
      getDependencies mk st ds parameters = .ok (vs, st') →
      st'.bindings = st.bindings ∧ st'.aliases = st.aliases := by
  intro ds
  induction ds with
  | nil =>
    intro st parameters vs st' h
    simp [getDependencies] at h
    rw [h.2]
    exact ⟨rfl, rfl⟩
  | cons d rest ih =>
    intro st parameters vs st' h
    simp only [getDependencies] at h
    by_cases hu : (getV parameters d).isUndefined
    · rw [if_pos hu] at h
      cases hq : mk st d with
      | error e => rw [hq] at h; simp [Except.bind] at h
      | ok q =>
        rw [hq] at h
        simp only [Except.bind] at h
        cases hr : getDependencies mk q.2 rest parameters with
        | error e => rw [hr] at h; simp [Except.map] at h
        | ok r =>
          rw [hr] at h
          simp only [Except.map, Except.ok.injEq, Prod.mk.injEq] at h
          have h1 := hmk st d q.1 q.2 (by rw [hq])
          have h2 := ih q.2 parameters r.1 r.2 (by rw [hr])
          rw [← h.2]
          exact ⟨h2.1.trans h1.1, h2.2.trans h1.2⟩
    · rw [if_neg hu] at h
      cases hr : getDependencies mk st rest parameters with
      | error e => rw [hr] at h; simp [Except.map] at h
      | ok r =>
        rw [hr] at h
        simp only [Except.map, Except.ok.injEq, Prod.mk.injEq] at h
        have h2 := ih st parameters r.1 r.2 (by rw [hr])
        rw [← h.2]
        exact h2

theorem build_preserves {L : Loader}
    {mk : State → String → Except Err (Value × State)}
    (hmk : preservesRegistry mk) (st : State) (c : Concrete)
    (parameters : Params) (v : Value) (st' : State)
    (h : build L mk st c parameters = .ok (v, st')) :
    st'.bindings = st.bindings ∧ st'.aliases = st.aliases := by
  cases c with
  | fn ctor =>
    simp only [build] at h
    cases hr : getDependencies mk st (parseFunctionArguments ctor) parameters with
    | error e => rw [hr] at h; simp [Except.map] at h
    | ok r =>
      rw [hr] at h
      simp only [Except.map, Except.ok.injEq, instantiateClass, Prod.mk.injEq] at h
      have h2 := getDependencies_preserves hmk _ st parameters r.1 r.2 (by rw [hr])
      rw [← h.2]
      exact h2
  | str s =>
    simp only [build] at h
    by_cases hn : needAutoInject (.str s)
    · rw [if_pos hn] at h
      cases hL : L (stripPlus s) with
      | none => rw [hL] at h; simp at h
      | some ctor =>
        rw [hL] at h
        simp only at h
        cases hr : getDependencies mk st (parseFunctionArguments ctor) parameters with
        | error e => rw [hr] at h; simp [Except.map] at h
        | ok r =>
          rw [hr] at h
          simp only [Except.map, Except.ok.injEq, instantiateClass,
            Prod.mk.injEq] at h
          have h2 := getDependencies_preserves hmk _ st parameters r.1 r.2
            (by rw [hr])
          rw [← h.2]
          exact h2
    · rw [if_neg hn] at h; simp at h
  | nullC => simp [build] at h

theorem finishResolution_preserves (st : State) (abstract : String)
    (object : Value) :
    (finishResolution st abstract object).bindings = st.bindings ∧
      (finishResolution st abstract object).aliases = st.aliases := by
  simp only [finishResolution]
  by_cases h : isShared st abstract <;> simp [h]

theorem make_preserves (L : Loader) :
    ∀ (f : Nat) (s : State) (a : String) (p : Params) (v : Value) (s' : State),
      make L f s a p = .ok (v, s') →
      s'.bindings = s.bindings ∧ s'.aliases = s.aliases := by
  intro f
  induction f with
  | zero => intro s a p v s' h; simp [make] at h
  | succ fuel ih =>
    intro s a p v s' h
    have ihP : preservesRegistry (fun s a => make L fuel s a noParams) :=
      fun s a v s' h => ih s a noParams v s' h
    simp only [make] at h
    by_cases ht : truthy (getV s.instances (getAlias s a))
    · rw [if_pos ht] at h
      simp only [Except.ok.injEq, Prod.mk.injEq] at h
      rw [← h.2]; exact ⟨rfl, rfl⟩
    · rw [if_neg ht] at h
      set concrete := getConcrete s (getAlias s a) with hc
      by_cases hb : isBuildable concrete (getAlias s a)
      · rw [if_pos hb] at h
        cases hr : build L (fun s a => make L fuel s a noParams) s concrete
            p with
        | error e => rw [hr] at h; simp [Except.map] at h
        | ok r =>
          rw [hr] at h
          simp only [Except.map, Except.ok.injEq, Prod.mk.injEq] at h
          have h2 := build_preserves ihP s concrete p r.1 r.2 (by rw [hr])
          have h3 := finishResolution_preserves r.2 (getAlias s a) r.1
          rw [← h.2]
          exact ⟨h3.1.trans h2.1, h3.2.trans h2.2⟩
      · rw [if_neg hb] at h
        cases hcc : concrete with
        | fn ctor => rw [hcc] at h; simp [Except.map] at h
        | nullC => rw [hcc] at h; simp [Except.map] at h
        | str s2 =>
          rw [hcc] at h
          simp only at h
          cases hr : make L fuel s s2 p with
          | error e => rw [hr] at h; simp [Except.map] at h
          | ok r =>
            rw [hr] at h
            simp only [Except.map, Except.ok.injEq, Prod.mk.injEq] at h
            have h2 := ih s s2 p r.1 r.2 (by rw [hr])
            have h3 := finishResolution_preserves r.2 (getAlias s a) r.1
            rw [← h.2]
            exact ⟨h3.1.trans h2.1, h3.2.trans h2.2⟩

theorem build_ok_obj {L : Loader}
    {mk : State → String → Except Err (Value × State)} {st : State}
    {c : Concrete} {parameters : Params} {v : Value} {st' : State}
    (h : build L mk st c parameters = .ok (v, st')) :
    ∃ ctor args i, v = .obj ctor args i := by
  cases c with
  | fn ctor =>
    simp only [build] at h
    cases hr : getDependencies mk st (parseFunctionArguments ctor) parameters with
    | error e => rw [hr] at h; simp [Except.map] at h
    | ok r =>
      rw [hr] at h
      simp only [Except.map, Except.ok.injEq, instantiateClass,
        Prod.mk.injEq] at h
      exact ⟨ctor, r.1, r.2.nextId, h.1.symm⟩
  | str s =>
    simp only [build] at h
    by_cases hn : needAutoInject (.str s)
    · rw [if_pos hn] at h
      cases hL : L (stripPlus s) with
      | none => rw [hL] at h; simp at h
      | some ctor =>
        rw [hL] at h
        simp only at h
        cases hr : getDependencies mk st (parseFunctionArguments ctor)
            parameters with
        | error e => rw [hr] at h; simp [Except.map] at h
        | ok r =>
          rw [hr] at h
          simp only [Except.map, Except.ok.injEq, instantiateClass,
            Prod.mk.injEq] at h
          exact ⟨ctor, r.1, r.2.nextId, h.1.symm⟩
    · rw [if_neg hn] at h; simp at h
  | nullC => simp [build] at h

theorem getAlias_instanceM (st : State) (n : String) (v : Value) :
    getAlias (instanceM st n v) n = n := by
  simp [getAlias, instanceM, lookupA_eraseA_self]

/-- C1 counterexample: the claim quantifies over every value v, but the
source guards the instance-cache fast path with truthiness, so after
instance("n", false) on a name previously bound to a constructible, make
builds a fresh object (truthy) instead of returning the registered false
(falsy). -/
theorem c1_counterexample :
    ((make noLoader 2
        (instanceM (bind initialState "n" (.fn ⟨[], [], 0⟩) (.boolV false))
          "n" (.boolV false)) "n" noParams).toOption.map
      (fun r => truthy r.1)) = some true
    ∧ truthy (.boolV false) = false := by
  exact ⟨rfl, rfl⟩

/-- C1 (corrected): for every truthy value v, after instance(n, v) a
subsequent make(n) returns exactly v, with no construction step and no
state change, regardless of any binding previously stored under n.  The
claim fails for falsy v (see the counterexample), which is the only
restriction added here. -/
theorem c1_instance_override (L : Loader) (f : Nat) (st : State) (n : String)
    (v : Value) (p : Params) (ht : truthy v = true) :
    make L (f + 1) (instanceM st n v) n p = .ok (v, instanceM st n v) := by
  simp only [make, getAlias_instanceM]
  have hI : getV (instanceM st n v).instances n = v := by
    simp [instanceM, getV_insertA_self]
  rw [hI, ht]
  simp

/-- Witness for C1: the override law evaluated at a concrete truthy
instance value. -/
theorem c1_instance_override_witness :
    make noLoader 1 (instanceM initialState "n" (.strV "bar")) "n" noParams =
      .ok (.strV "bar", instanceM initialState "n" (.strV "bar")) :=
  c1_instance_override noLoader 0 initialState "n" (.strV "bar") noParams rfl

/-- C7: bind first removes any cached instance under the name and then
stores the binding with the coerced shared flag; consequently whatever
instance was cached under the name before the bind is irrelevant to the
resulting container state, so the next make is governed by the new
binding and never by a stale cached value. -/
theorem c7_rebind_eviction (st : State) (n : String) (c : Concrete)
    (s : Value) :
    lookupA (bind st n c s).instances n = none
    ∧ lookupA (bind st n c s).bindings n = some ⟨c, truthy s⟩
    ∧ ∀ w : Value,
        bind { st with instances := insertA st.instances n w } n c s =
          bind st n c s := by
  refine ⟨?_, ?_, ?_⟩
  · simp [bind, dropStaleInstances, lookupA_eraseA_self]
  · simp [bind, dropStaleInstances, lookupA_insertA_self]
  · intro w
    simp [bind, dropStaleInstances, eraseA_insertA]

/-- C9 counterexample: the claim says bindIf stores the binding if and
only if the name is not already bound, where a cached instance counts as
bound; but bound tests the cached instance for truthiness, so after
instance("n", false) the name holds a cached instance and bindIf
nevertheless stores the new binding. -/
theorem c9_counterexample :
    lookupA (bindIf (instanceM initialState "n" (.boolV false)) "n"
        (.fn ⟨[], [], 0⟩) (.boolV true)).bindings "n" =
      some ⟨.fn ⟨[], [], 0⟩, true⟩
    ∧ lookupA (instanceM initialState "n" (.boolV false)).instances "n" =
      some (.boolV false) := by
  exact ⟨rfl, rfl⟩

/-- C9 (corrected): bindIf stores the binding if and only if bound is
false, where bound means: a binding entry exists, or a cached instance
with a truthy value exists, or the name is an alias key whose stored
target is truthy; in particular bindIf(n, C2) after bind(n, C1) leaves
the container unchanged, so make(n) still resolves via C1. -/
theorem c9_bindIf (st : State) (n : String) (c : Concrete) (s : Value) :
    (bound st n = false → bindIf st n c s = bind st n c s)
    ∧ (bound st n = true → bindIf st n c s = st)
    ∧ ∀ (c1 : Concrete) (s1 : Value),
        bindIf (bind st n c1 s1) n c s = bind st n c1 s1 := by
  refine ⟨?_, ?_, ?_⟩
  · intro h; simp [bindIf, h]
  · intro h; simp [bindIf, h]
  · intro c1 s1
    have hb : bound (bind st n c1 s1) n = true := by
      simp [bound, bind, dropStaleInstances, lookupA_insertA_self]
    simp [bindIf, hb]

/-- Witness for C9: bindIf on an unbound name stores the binding. -/
theorem c9_bindIf_witness :
    bindIf initialState "n" (.fn ⟨[], [], 0⟩) (.boolV true) =
      bind initialState "n" (.fn ⟨[], [], 0⟩) (.boolV true) :=
  (c9_bindIf initialState "n" (.fn ⟨[], [], 0⟩) (.boolV true)).1 rfl

/-- C3: dependency-injection precedence, in parameter-list order.  A
parameter whose entry in the caller-supplied map is defined is consumed
verbatim as the next argument; an undefined one is resolved by make
(which the source invokes with no parameter map) and its result used; and
build over a constructible resolves exactly the declared parameter list
this way before instantiating with the arguments in that order. -/
theorem c3_dependency_precedence (L : Loader) (f : Nat) (st : State)
    (p : String) (ds : List String) (params : Params) (C : Ctor) :
    ((getV params p).isUndefined = false →
      getDependencies (fun s a => make L f s a noParams) st (p :: ds) params =
        (getDependencies (fun s a => make L f s a noParams) st ds params).map
          (fun r => (getV params p :: r.1, r.2)))
    ∧ ((getV params p).isUndefined = true →
      getDependencies (fun s a => make L f s a noParams) st (p :: ds) params =
        (make L f st p noParams).bind (fun q =>
          (getDependencies (fun s a => make L f s a noParams) q.2 ds
            params).map (fun r => (q.1 :: r.1, r.2))))
    ∧ build L (fun s a => make L f s a noParams) st (.fn C) params =
        (getDependencies (fun s a => make L f s a noParams) st C.params
          params).map (fun r => instantiateClass C r.1 r.2) := by
  refine ⟨?_, ?_, rfl⟩
  · intro h; simp [getDependencies, h]
  · intro h; simp [getDependencies, h]

/-- Witness for C3: a defined entry is consumed verbatim and an absent
one goes through make, evaluated on concrete inputs. -/
theorem c3_dependency_precedence_witness :
    (getDependencies (fun s a => make noLoader 0 s a noParams) initialState
        ["p"] [("p", .strV "v")] =
      (getDependencies (fun s a => make noLoader 0 s a noParams) initialState
        [] [("p", .strV "v")]).map
        (fun r => (getV [("p", .strV "v")] "p" :: r.1, r.2)))
    ∧ (getDependencies (fun s a => make noLoader 0 s a noParams) initialState
        ["q"] [("p", .strV "v")] =
      (make noLoader 0 initialState "q" noParams).bind (fun q =>
        (getDependencies (fun s a => make noLoader 0 s a noParams) q.2 []
          [("p", .strV "v")]).map (fun r => (q.1 :: r.1, r.2)))) :=
  ⟨(c3_dependency_precedence noLoader 0 initialState "p" [] [("p", .strV "v")]
      ⟨[], [], 0⟩).1 rfl,
   (c3_dependency_precedence noLoader 0 initialState "q" [] [("p", .strV "v")]
      ⟨[], [], 0⟩).2.1 rfl⟩

/-- C5: a binding whose concrete is a string naming a different abstract
is not buildable, so make re-enters itself on that string with the same
parameter map (followed only by the sharing and resolved bookkeeping of
the original name); concretely, bind("x", "y") with bind("y", YCtor)
makes make("x") produce a YCtor-constructed instance. -/
theorem c5_indirection (L : Loader) (f : Nat) (st : State) (x y : String)
    (p : Params) (s : Bool)
    (hA : getAlias st x = x)
    (hI : truthy (getV st.instances x) = false)
    (hB : lookupA st.bindings x = some ⟨.str y, s⟩)
    (hxy : y ≠ x) :
    make L (f + 1) st x p =
      (make L f st y p).map (fun r => (r.1, finishResolution r.2 x r.1))
    ∧ (make noLoader 2
        (bind (bind initialState "x" (.str "y") (.boolV false)) "y"
          (.fn ⟨[], [], 7⟩) (.boolV false)) "x" noParams).toOption.map
        Prod.fst = some (.obj ⟨[], [], 7⟩ [] 0) := by
  constructor
  · have hC : getConcrete st x = .str y := by simp [getConcrete, hB]
    have hNB : isBuildable (.str y) x = false := by
      simp [isBuildable, hxy]
    simp only [make, hA, hI, hC, hNB]
    simp
  · rfl

/-- Witness for C5: the indirection equation evaluated on the concrete
two-binding container. -/
theorem c5_indirection_witness :
    make noLoader 2
        (bind (bind initialState "x" (.str "y") (.boolV false)) "y"
          (.fn ⟨[], [], 7⟩) (.boolV false)) "x" noParams =
      (make noLoader 1
        (bind (bind initialState "x" (.str "y") (.boolV false)) "y"
          (.fn ⟨[], [], 7⟩) (.boolV false)) "y" noParams).map
        (fun r => (r.1, finishResolution r.2 "x" r.1)) :=
  (c5_indirection noLoader 1
      (bind (bind initialState "x" (.str "y") (.boolV false)) "y"
        (.fn ⟨[], [], 7⟩) (.boolV false)) "x" "y" noParams false
      rfl rfl rfl (by decide)).1

/-- C6: alias resolution is one level only.  getAlias performs a single
lookup, returning the recorded canonical name even when that name is
itself an alias key mapping to a third name; and when the canonical name
is not redirected, make on the alias is the same computation as make
applied directly to the canonical name. -/
theorem c6_alias_one_level (L : Loader) (f : Nat) (st : State)
    (a n m : String) (p : Params)
    (h1 : lookupA st.aliases a = some n)
    (h2 : n ≠ "") :
    (lookupA st.aliases n = some m → getAlias st a = n)
    ∧ (getAlias st n = n →
        make L (f + 1) st a p = make L (f + 1) st n p) := by
  have hA : getAlias st a = n := by simp [getAlias, h1, h2]
  constructor
  · intro _; exact hA
  · intro hn
    simp only [make, hA, hn]

/-- Witness for C6: with aliases a -> n and n -> m, resolving a stops at
n; and with only a -> n recorded, make on a equals make on n. -/
theorem c6_alias_one_level_witness :
    getAlias ⟨[], [], [], [("a", "n"), ("n", "m")], 0⟩ "a" = "n"
    ∧ make noLoader 1 ⟨[], [], [], [("a", "n")], 0⟩ "a" noParams =
        make noLoader 1 ⟨[], [], [], [("a", "n")], 0⟩ "n" noParams :=
  ⟨(c6_alias_one_level noLoader 0 ⟨[], [], [], [("a", "n"), ("n", "m")], 0⟩
      "a" "n" "m" noParams rfl (by decide)).1 rfl,
   (c6_alias_one_level noLoader 0 ⟨[], [], [], [("a", "n")], 0⟩
      "a" "n" "m" noParams rfl (by decide)).2 rfl⟩

/-- C8: forgetInstance removes the binding, the cached instance and the
alias entry of the name together; a subsequent make finds none of them,
turns the name into the external-load marker (whose stripped form is the
name itself) and re-enters make on that marker, the external-load
attempt. -/
theorem c8_forget_instance (L : Loader) (f : Nat) (st : State) (n : String)
    (p : Params) (h : startsWithPlus n = false) :
    lookupA (forgetInstance st n).bindings n = none
    ∧ lookupA (forgetInstance st n).instances n = none
    ∧ lookupA (forgetInstance st n).aliases n = none
    ∧ getConcrete (forgetInstance st n) n = .str ("+" ++ n)
    ∧ needAutoInject (.str ("+" ++ n)) = true
    ∧ stripPlus ("+" ++ n) = n
    ∧ make L (f + 1) (forgetInstance st n) n p =
        (make L f (forgetInstance st n) ("+" ++ n) p).map
          (fun r => (r.1, finishResolution r.2 n r.1)) := by
  have hb : lookupA (forgetInstance st n).bindings n = none := by
    simp [forgetInstance, lookupA_eraseA_self]
  have hi : lookupA (forgetInstance st n).instances n = none := by
    simp [forgetInstance, lookupA_eraseA_self]
  have ha : lookupA (forgetInstance st n).aliases n = none := by
    simp [forgetInstance, lookupA_eraseA_self]
  have hC : getConcrete (forgetInstance st n) n = .str ("+" ++ n) := by
    simp [getConcrete, hb, h]
  refine ⟨hb, hi, ha, hC, ?_, stripPlus_prepend n, ?_⟩
  · simp [needAutoInject, startsWithPlus_prepend]
  · have hA : getAlias (forgetInstance st n) n = n := by
      simp [getAlias, ha]
    have hI : truthy (getV (forgetInstance st n).instances n) = false := by
      simp [getV, hi, truthy]
    have hNB : isBuildable (.str ("+" ++ n)) n = false := by
      simp [isBuildable, plus_prepend_ne n]
    simp only [make, hA, hI, hC, hNB]
    simp

/-- Witness for C8: forgetting a concrete name on a populated container
and checking all seven consequences. -/
theorem c8_forget_instance_witness :
    lookupA (forgetInstance (singleton initialState "svc" (.fn ⟨[], [], 0⟩))
        "svc").bindings "svc" = none
    ∧ lookupA (forgetInstance (singleton initialState "svc" (.fn ⟨[], [], 0⟩))
        "svc").instances "svc" = none
    ∧ lookupA (forgetInstance (singleton initialState "svc" (.fn ⟨[], [], 0⟩))
        "svc").aliases "svc" = none
    ∧ getConcrete (forgetInstance (singleton initialState "svc"
        (.fn ⟨[], [], 0⟩)) "svc") "svc" = .str ("+" ++ "svc")
    ∧ needAutoInject (.str ("+" ++ "svc")) = true
    ∧ stripPlus ("+" ++ "svc") = "svc"
    ∧ make noLoader 2 (forgetInstance (singleton initialState "svc"
        (.fn ⟨[], [], 0⟩)) "svc") "svc" noParams =
        (make noLoader 1 (forgetInstance (singleton initialState "svc"
          (.fn ⟨[], [], 0⟩)) "svc") ("+" ++ "svc") noParams).map
          (fun r => (r.1, finishResolution r.2 "svc" r.1)) :=
  c8_forget_instance noLoader 1
    (singleton initialState "svc" (.fn ⟨[], [], 0⟩)) "svc" noParams rfl

/-- C2: singleton law.  After singleton(n, C) on a name that is not
redirected by an alias, a successful make(n) caches the constructed
object, and a second make(n) returns the identical object and leaves the
state unchanged, so every further make(n) keeps returning it until the
cache or binding is removed. -/
theorem c2_singleton_law (L : Loader) (st : State) (n : String) (C : Ctor)
    (p p2 : Params) (f g : Nat) (v1 : Value) (st2 : State)
    (hA : getAlias st n = n)
    (h1 : make L (f + 1) (singleton st n (.fn C)) n p = .ok (v1, st2)) :
    make L (g + 1) st2 n p2 = .ok (v1, st2) := by
  have hal : (singleton st n (.fn C)).aliases = st.aliases := rfl
  have hA1 : getAlias (singleton st n (.fn C)) n = n :=
    (getAlias_congr hal n).trans hA
  have hI1 : truthy (getV (singleton st n (.fn C)).instances n) = false := by
    simp [singleton, bind, dropStaleInstances, getV_eraseA_self, truthy]
  have hB1 : lookupA (singleton st n (.fn C)).bindings n =
      some ⟨.fn C, true⟩ := by
    simp [singleton, bind, dropStaleInstances, lookupA_insertA_self, truthy]
  have hC1 : getConcrete (singleton st n (.fn C)) n = .fn C := by
    simp [getConcrete, hB1]
  simp only [make, hA1, hI1, hC1, isBuildable] at h1
  simp only [Bool.false_eq_true, if_false, if_true] at h1
  cases hb : build L (fun s a => make L f s a noParams)
      (singleton st n (.fn C)) (.fn C) p with
  | error e => rw [hb] at h1; simp [Except.map] at h1
  | ok r =>
    rw [hb] at h1
    simp only [Except.map, Except.ok.injEq, Prod.mk.injEq] at h1
    obtain ⟨hv, hst⟩ := h1
    obtain ⟨cc, args, i, hvo⟩ := build_ok_obj hb
    have htr : truthy v1 = true := by
      rw [← hv]; exact truthy_of_obj cc args i hvo
    have hpres := build_preserves
      (fun s a v s' h => make_preserves L f s a noParams v s' h)
      (singleton st n (.fn C)) (.fn C) p r.1 r.2 hb
    have hsh : isShared r.2 n = true := by
      simp [isShared, hpres.1, hB1]
    have hst2ins : getV st2.instances n = v1 := by
      rw [← hst]
      simp [finishResolution, hsh, getV_insertA_self, hv]
    have hst2al : st2.aliases = st.aliases := by
      rw [← hst]
      rw [(finishResolution_preserves r.2 n r.1).2, hpres.2, hal]
    have hA2 : getAlias st2 n = n := (getAlias_congr hst2al n).trans hA
    simp only [make, hA2, hst2ins, htr]
    simp

/-- Witness for C2: the law evaluated on a freshly registered singleton
whose first make is computed concretely. -/
theorem c2_singleton_law_witness :
    make noLoader 1
        ⟨[("s", ⟨.fn ⟨[], [], 0⟩, true⟩)],
         [("s", .obj ⟨[], [], 0⟩ [] 0)], ["s"], [], 1⟩ "s" noParams =
      .ok (.obj ⟨[], [], 0⟩ [] 0,
        ⟨[("s", ⟨.fn ⟨[], [], 0⟩, true⟩)],
         [("s", .obj ⟨[], [], 0⟩ [] 0)], ["s"], [], 1⟩) :=
  c2_singleton_law noLoader initialState "s" ⟨[], [], 0⟩ noParams noParams
    0 0 (.obj ⟨[], [], 0⟩ [] 0)
    ⟨[("s", ⟨.fn ⟨[], [], 0⟩, true⟩)],
     [("s", .obj ⟨[], [], 0⟩ [] 0)], ["s"], [], 1⟩ rfl rfl

/-- C4: a call whose target reaches callClass without a method name (the
at-sign split of the target does not yield exactly one method segment
usable as a method, and the default method is falsy) fails with the fatal
InvalidArgument error of the spec, before any instance construction or
method invocation. -/
theorem c4_missing_method (L : Loader) (f : Nat) (st : State) (s : String)
    (parameters : Params) (defaultMethod : Option String)
    (hreach : (isCallableWithAtSign (.target s) || truthyOpt defaultMethod)
      = true)
    (hmethod : truthyOpt (match jsSplit s '@' with
      | [_, m] => some m
      | _ => defaultMethod) = false) :
    call L f st (.target s) parameters defaultMethod =
      .error (.exceptionThrown "InvalidArgumentException"
        "Method is not provided.") := by
  rw [call, if_pos hreach, callClass]
  simp only [hmethod, Bool.false_eq_true, if_false]
  rfl

/-- Witness for C4: the target "a@" has an at sign but an empty method
segment and no default method is supplied, so the call fails with the
InvalidArgument error. -/
theorem c4_missing_method_witness :
    call noLoader 1 initialState (.target "a@") noParams none =
      .error (.exceptionThrown "InvalidArgumentException"
        "Method is not provided.") :=
  c4_missing_method noLoader 1 initialState "a@" noParams none rfl rfl

theorem getMethodDependenciesLoop_absent (L : Loader) (f : Nat)
    (p : String) :
    ∀ (ps : List String) (st : State) (parameters : Params)
      (acc : List Value) (q : Params × List Value × State),
      (getV parameters p).isUndefined = true →
      getMethodDependenciesLoop L f st ps parameters acc = .ok q →
      (getV q.1 p).isUndefined = true := by
  intro ps
  induction ps with
  | nil =>
    intro st parameters acc q habs h
    simp only [getMethodDependenciesLoop, Except.ok.injEq] at h
    rw [← h]
    exact habs
  | cons d ds ih =>
    intro st parameters acc q habs h
    simp only [getMethodDependenciesLoop] at h
    cases hadd : addDependencyForCallParameter L f st d parameters acc with
    | error e => rw [hadd] at h; simp [Except.bind] at h
    | ok r =>
      rw [hadd] at h
      simp only [Except.bind] at h
      simp only [addDependencyForCallParameter] at hadd
      by_cases hu : (getV parameters d).isUndefined
      · rw [if_pos hu] at hadd
        cases hm : make L f st d parameters with
        | error e => rw [hm] at hadd; simp [Except.map] at hadd
        | ok q2 =>
          rw [hm] at hadd
          simp only [Except.map, Except.ok.injEq] at hadd
          have hr1 : r.1 = parameters := by rw [← hadd]
          exact ih r.2.2 r.1 r.2.1 q (by rw [hr1]; exact habs) h
      · rw [if_neg hu] at hadd
        simp only [Except.ok.injEq] at hadd
        have hr1 : r.1 = eraseA parameters d := by rw [← hadd]
        have habs2 : (getV r.1 p).isUndefined = true := by
          rw [hr1]
          by_cases hpd : p = d
          · rw [hpd, getV_eraseA_self]; rfl
          · rw [getV_eraseA_ne parameters hpd]; exact habs
        exact ih r.2.2 r.1 r.2.1 q habs2 h

theorem getMethodDependenciesLoop_deletes (L : Loader) (f : Nat)
    (p : String) :
    ∀ (ps : List String) (st : State) (parameters : Params)
      (acc : List Value) (q : Params × List Value × State),
      p ∈ ps →
      (getV parameters p).isUndefined = false →
      getMethodDependenciesLoop L f st ps parameters acc = .ok q →
      (getV q.1 p).isUndefined = true := by
  intro ps
  induction ps with
  | nil => intro st parameters acc q hmem; exact absurd hmem (by simp)
  | cons d ds ih =>
    intro st parameters acc q hmem hpres h
    simp only [getMethodDependenciesLoop] at h
    cases hadd : addDependencyForCallParameter L f st d parameters acc with
    | error e => rw [hadd] at h; simp [Except.bind] at h
    | ok r =>
      rw [hadd] at h
      simp only [Except.bind] at h
      simp only [addDependencyForCallParameter] at hadd
      by_cases hpd : p = d
      · have hu : ¬ (getV parameters d).isUndefined = true := by
          rw [← hpd]
          simp [hpres]
        rw [if_neg hu] at hadd
        simp only [Except.ok.injEq] at hadd
        have hr1 : r.1 = eraseA parameters d := by rw [← hadd]
        have habs : (getV r.1 p).isUndefined = true := by
          rw [hr1, hpd, getV_eraseA_self]; rfl
        exact getMethodDependenciesLoop_absent L f p ds r.2.2 r.1 r.2.1 q
          habs h
      · have hmem2 : p ∈ ds := by
          cases List.mem_cons.mp hmem with
          | inl hx => exact absurd hx hpd
          | inr hx => exact hx
        by_cases hu : (getV parameters d).isUndefined
        · rw [if_pos hu] at hadd
          cases hm : make L f st d parameters with
          | error e => rw [hm] at hadd; simp [Except.map] at hadd
          | ok q2 =>
            rw [hm] at hadd
            simp only [Except.map, Except.ok.injEq] at hadd
            have hr1 : r.1 = parameters := by rw [← hadd]
            exact ih r.2.2 r.1 r.2.1 q hmem2 (by rw [hr1]; exact hpres) h
        · rw [if_neg hu] at hadd
          simp only [Except.ok.injEq] at hadd
          have hr1 : r.1 = eraseA parameters d := by rw [← hadd]
          have hpres2 : (getV r.1 p).isUndefined = false := by
            rw [hr1, getV_eraseA_ne parameters hpd]; exact hpres
          exact ih r.2.2 r.1 r.2.1 q hmem2 hpres2 h

/-- C10: call mutates the caller-supplied override map.  For any formal
parameter of the callback that is present (defined) in the map, a
successful call returns a map from which that entry has been deleted, so
the map is not left unchanged — in contrast with the build path, whose
getDependencies reads the map without ever returning a modified one. -/
theorem c10_call_consumes_parameters (L : Loader) (f : Nat) (st : State)
    (cb : Callback) (parameters : Params) (p : String) (ps : List String)
    (out : List Value) (paramsOut : Params) (stOut : State)
    (hrefl : getCallRefrector cb = .ok ps)
    (hmem : p ∈ ps)
    (hpres : (getV parameters p).isUndefined = false)
    (hnoat : isCallableWithAtSign cb = false)
    (hcall : call L f st cb parameters none = .ok (out, paramsOut, stOut)) :
    getV paramsOut p = .undefV ∧ paramsOut ≠ parameters := by
  rw [call] at hcall
  simp only [hnoat, truthyOpt, Bool.or_self, Bool.false_eq_true,
    if_false] at hcall
  simp only [getMethodDependencies, hrefl, Except.bind] at hcall
  cases hloop : getMethodDependenciesLoop L f st ps parameters [] with
  | error e => rw [hloop] at hcall; simp [Except.map, Except.bind] at hcall
  | ok q =>
    rw [hloop] at hcall
    simp only [Except.map] at hcall
    cases hex : executeCallable cb q.2.1 with
    | error e => rw [hex] at hcall; simp [Except.bind, Except.map] at hcall
    | ok o =>
      rw [hex] at hcall
      simp only [Except.bind, Except.map, Except.ok.injEq,
        Prod.mk.injEq] at hcall
      have hq1 : paramsOut = q.1 := by
        rw [← hcall.2.1]
      have hdel := getMethodDependenciesLoop_deletes L f p ps st parameters
        [] q hmem hpres hloop
      have hgone : getV paramsOut p = .undefV := by
        rw [hq1]
        exact (isUndefined_iff (getV q.1 p)).mp hdel
      refine ⟨hgone, ?_⟩
      intro he
      rw [he] at hgone
      rw [hgone] at hpres
      simp [Value.isUndefined] at hpres

/-- Witness for C10: calling a one-parameter closure with that parameter
supplied removes the entry from the returned map. -/
theorem c10_call_consumes_parameters_witness :
    getV ([] : Params) "id" = .undefV
    ∧ ([] : Params) ≠ [("id", .strV "x")] :=
  c10_call_consumes_parameters noLoader 1 initialState
    (.clos ⟨["id"], [], 3⟩) [("id", .strV "x")] "id" ["id"]
    [.strV "x"] [] initialState rfl (by decide) rfl rfl
    (by
      rw [call, if_neg (by decide :
        ¬ ((isCallableWithAtSign (.clos ⟨["id"], [], 3⟩)
          || truthyOpt none) = true))]
      rfl)

end Container
